import Mathlib

/-!
# elelden-backend: authentication subsystem

A shallow embedding of `pkg/utils/password.go`, `pkg/auth/jwt.go` and
`internal/api/middleware/auth.go`, followed by the properties proved about it.

Go strings are modelled by Lean strings (valid UTF-8 text); `len(s)` of a Go
string is its number of bytes, `String.utf8ByteSize`.
-/

namespace Elelden

/-! ## pkg/utils/password.go -/

/-- IsValidPassword checks if password meets requirements (Go `len` counts bytes). -/
def IsValidPassword (password : String) : Bool :=
  -- At least 6 characters
  if password.utf8ByteSize < 6 then
    false
  else
    true

/-! ## Go library pieces used by the middleware -/

/-- Pieces of a character list between occurrences of `sep` (always at least one piece). -/
def splitChars (sep : Char) : List Char → List (List Char)
  | [] => [[]]
  | c :: cs =>
    if c = sep then [] :: splitChars sep cs
    else
      match splitChars sep cs with
      | [] => [[c]]
      | p :: ps => (c :: p) :: ps

/-- Go `strings.Split(s, sep)` for a separator of one character. -/
def strings.Split (s : String) (sep : Char) : List String :=
  (splitChars sep s.data).map String.mk

/-! ## pkg/auth/jwt.go: data -/

/-- Go `time.Time`, as nanoseconds since the Unix epoch. -/
abbrev Time := Int

/-- Go `time.Duration`, in nanoseconds. -/
abbrev Duration := Int

/-- Go `time.Second`. -/
def Second : Duration := 1000000000

/-- The checks of the registered claims that can fail in this code:
`ErrTokenExpired` and `ErrTokenNotValidYet` of the token library. -/
inductive ClaimError
  | TokenExpired
  | TokenNotValidYet
  deriving DecidableEq, Repr

/-- Go errors met in this code: `errors.New` values of the repository and the
error kinds of the token library. `TokenInvalidClaims joined` is
`ErrTokenInvalidClaims` wrapping the join of every failed check, so that
`errors.Is` finds each of them. -/
inductive Error
  | New (text : String)
  | TokenMalformed
  | TokenUnverifiable (text : String) (cause : Option String)
  | TokenSignatureInvalid
  | TokenInvalidClaims (joined : List ClaimError)
  | InvalidKeyType
  deriving DecidableEq, Repr

/-- JWTClaims of jwt.go: the four identity fields and the registered claims the
code sets (`*NumericDate` fields are optional). -/
structure JWTClaims where
  UserID : Nat
  Email : String
  Username : String
  Role : String
  Subject : String
  ExpiresAt : Option Time
  NotBefore : Option Time
  IssuedAt : Option Time
  deriving DecidableEq, Repr

/-- JWTManager of jwt.go. -/
structure JWTManager where
  secretKey : String
  duration : Duration
  deriving DecidableEq, Repr

/-! ## golang-jwt and the clock (external to the repository)

The token library is modelled at the level of its parsing pipeline. The wire
format (base64url, JSON, the three dot-separated segments) and the MAC are
parameters, gathered in `Lib`. -/

/-- Hash functions of the registered signing methods. -/
inductive Hash
  | SHA256
  | SHA384
  | SHA512
  deriving DecidableEq, Repr

/-- Signing methods registered by the library, by Go type: `*SigningMethodHMAC`
(HS256, HS384, HS512), `*SigningMethodRSA`, `*SigningMethodRSAPSS`,
`*SigningMethodECDSA`, `*SigningMethodEd25519` and the unsecured method. -/
inductive SigningMethod
  | HMAC (h : Hash)
  | RSA (h : Hash)
  | RSAPSS (h : Hash)
  | ECDSA (h : Hash)
  | EdDSA
  | Unsecured
  deriving DecidableEq, Repr

/-- SigningMethodHS256. -/
def SigningMethodHS256 : SigningMethod := .HMAC .SHA256

/-- The `Alg()` name of a signing method. -/
def SigningMethod.Alg : SigningMethod → String
  | .HMAC .SHA256 => "HS256"
  | .HMAC .SHA384 => "HS384"
  | .HMAC .SHA512 => "HS512"
  | .RSA .SHA256 => "RS256"
  | .RSA .SHA384 => "RS384"
  | .RSA .SHA512 => "RS512"
  | .RSAPSS .SHA256 => "PS256"
  | .RSAPSS .SHA384 => "PS384"
  | .RSAPSS .SHA512 => "PS512"
  | .ECDSA .SHA256 => "ES256"
  | .ECDSA .SHA384 => "ES384"
  | .ECDSA .SHA512 => "ES512"
  | .EdDSA => "EdDSA"
  | .Unsecured => "none"

/-- The signing methods the library registers at start-up. -/
def signingMethods : List SigningMethod :=
  [.HMAC .SHA256, .HMAC .SHA384, .HMAC .SHA512, .RSA .SHA256, .RSA .SHA384, .RSA .SHA512,
    .RSAPSS .SHA256, .RSAPSS .SHA384, .RSAPSS .SHA512, .ECDSA .SHA256, .ECDSA .SHA384,
    .ECDSA .SHA512, .EdDSA, .Unsecured]

/-- The library lookup `jwt.GetSigningMethod(alg)`: the registered method of that name. -/
def GetSigningMethod (alg : String) : Option SigningMethod :=
  signingMethods.find? (fun m => m.Alg = alg)

/-- What `Parser.ParseUnverified` and the decoding of the signature segment give:
the `alg` header when it is a string, the decoded claims, the signed text
(first two segments) and the decoded signature (`none`: not base64url). -/
structure Unverified where
  alg : Option String
  Claims : JWTClaims
  text : String
  Signature : Option String
  deriving DecidableEq, Repr

/-- The wire format and the MAC of the token library, as parameters:
`hmac h key text` is HMAC with hash `h`; `SigningString alg claims` is
`Token.SigningString` for the header of method `alg`; `Compact text sig` is the
text, a dot and the encoded signature; `Decode` splits and decodes a token
string. -/
structure Lib where
  hmac : Hash → String → String → String
  SigningString : String → JWTClaims → String
  Compact : String → String → String
  Decode : String → Except Error Unverified

/-- The wire format decodes what it encoded for the header of method `alg` and
these `claims`, whatever the signature. (For golang-jwt this is the case of a
user id in the range of `uint` and of dates in whole seconds that a JSON number
holds exactly; nothing is assumed about other claims.) -/
def Lib.RoundTrips (lib : Lib) (alg : String) (claims : JWTClaims) : Prop :=
  ∀ sig : String,
    lib.Decode (lib.Compact (lib.SigningString alg claims) sig)
      = .ok { alg := some alg, Claims := claims,
              text := lib.SigningString alg claims, Signature := some sig }

/-- The wall clock: the values its successive reads return. -/
structure Clock where
  readings : Nat → Time

/-- Go `time.Now()`: the next reading, and the clock after it. -/
def Clock.Now (k : Clock) : Time × Clock :=
  (k.readings 0, { readings := fun n => k.readings (n + 1) })

/-- Go `t.Add(d)`. -/
def Time.Add (t : Time) (d : Duration) : Time := t + d

/-- Go `t.Truncate(d)` for a positive `d`: down to a multiple of `d`. -/
def Time.Truncate (t : Time) (d : Duration) : Time := t - t % d

/-- The library constructor `jwt.NewNumericDate(t)`, with the default
`TimePrecision` of one second. -/
def NewNumericDate (t : Time) : Option Time := some (Time.Truncate t Second)

/-- The library type `jwt.Token`, reduced to the fields the code reads. -/
structure Token where
  Method : SigningMethod
  Claims : JWTClaims
  Valid : Bool
  deriving DecidableEq, Repr

/-- The library constructor `jwt.NewWithClaims(method, claims)`. -/
def NewWithClaims (method : SigningMethod) (claims : JWTClaims) : Token :=
  { Method := method, Claims := claims, Valid := false }

/-- The `Sign` method of a signing method, for a `[]byte` key: the HMAC methods
compute the MAC, every other method refuses the key type. -/
def SigningMethod.Sign (lib : Lib) (m : SigningMethod) (text key : String) :
    Except Error String :=
  match m with
  | .HMAC h => .ok (lib.hmac h key text)
  | _ => .error .InvalidKeyType

/-- The `Verify` method of a signing method, for a `[]byte` key. -/
def SigningMethod.Verify (lib : Lib) (m : SigningMethod) (text sig key : String) :
    Except Error Unit :=
  match m with
  | .HMAC h => if sig = lib.hmac h key text then .ok () else .error .TokenSignatureInvalid
  | _ => .error .InvalidKeyType

/-- The library method `token.SignedString(key)`; Go returns `("", err)` on failure. -/
def Token.SignedString (lib : Lib) (token : Token) (key : String) : String × Option Error :=
  let sstr := lib.SigningString token.Method.Alg token.Claims
  match token.Method.Sign lib sstr key with
  | .error err => ("", some err)
  | .ok sig => (lib.Compact sstr sig, none)

/-- The text of an error, as `err.Error()` shows it when the library wraps it. -/
def Error.text : Error → String
  | .New text => text
  | .TokenMalformed => "token is malformed"
  | .TokenUnverifiable text _ => text
  | .TokenSignatureInvalid => "signature is invalid"
  | .TokenInvalidClaims _ => "token has invalid claims"
  | .InvalidKeyType => "key is of invalid type"

/-- The validator check `verifyExpiresAt`: no `exp`, or `now` before `exp`. -/
def verifyExpiresAt (claims : JWTClaims) (now : Time) : List ClaimError :=
  match claims.ExpiresAt with
  | none => []
  | some exp => if now < exp then [] else [.TokenExpired]

/-- The validator check `verifyNotBefore`: no `nbf`, or `now` not before `nbf`. -/
def verifyNotBefore (claims : JWTClaims) (now : Time) : List ClaimError :=
  match claims.NotBefore with
  | none => []
  | some nbf => if ¬ now < nbf then [] else [.TokenNotValidYet]

/-- The default validator of the library on the registered claims, at time `now`:
every failed check is collected (`iat` is not checked by default, no issuer,
audience or subject is expected); the empty list is the nil error. -/
def Validate (claims : JWTClaims) (now : Time) : List ClaimError :=
  verifyExpiresAt claims now ++ verifyNotBefore claims now

/-- The library function `jwt.ParseWithClaims(tokenString, claims, keyFunc)` with
no parser option: decode, look the method up, ask `keyFunc` for the key, verify
the signature, validate the registered claims against the clock. -/
def ParseWithClaims (lib : Lib) (tokenString : String)
    (keyFunc : Token → Except Error String) (clk : Clock) : Except Error Token × Clock :=
  match lib.Decode tokenString with
  | .error err => (.error err, clk)
  | .ok u =>
    match u.alg with
    | none => (.error (.TokenUnverifiable "signing method (alg) is unspecified" none), clk)
    | some headerAlg =>
      match GetSigningMethod headerAlg with
      | none => (.error (.TokenUnverifiable "signing method (alg) is unavailable" none), clk)
      | some method =>
        let token : Token := { Method := method, Claims := u.Claims, Valid := false }
        match u.Signature with
        | none => (.error .TokenMalformed, clk)
        | some sig =>
          match keyFunc token with
          | .error err =>
            (.error (.TokenUnverifiable "error while executing keyfunc" (some err.text)), clk)
          | .ok key =>
            match method.Verify lib u.text sig key with
            | .error _ => (.error .TokenSignatureInvalid, clk)
            | .ok _ =>
              let (now, clk) := clk.Now
              match Validate u.Claims now with
              | [] => (.ok { token with Valid := true }, clk)
              | err :: errs => (.error (.TokenInvalidClaims (err :: errs)), clk)

/-! ## pkg/auth/jwt.go: operations -/

/-- NewJWTManager of jwt.go. -/
def NewJWTManager (secretKey : String) (duration : Duration) : JWTManager :=
  { secretKey := secretKey, duration := duration }

/-- The claims GenerateToken builds: the clock is read once for each of
`ExpiresAt`, `IssuedAt` and `NotBefore`, in that order. -/
def JWTManager.newClaims (j : JWTManager) (userID : Nat) (email username role : String)
    (clk : Clock) : JWTClaims × Clock :=
  let (t0, clk) := clk.Now
  let (t1, clk) := clk.Now
  let (t2, clk) := clk.Now
  ({ UserID := userID,
     Email := email,
     Username := username,
     Role := role,
     ExpiresAt := NewNumericDate (Time.Add t0 j.duration),
     IssuedAt := NewNumericDate t1,
     NotBefore := NewNumericDate t2,
     Subject := email }, clk)

/-- GenerateToken creates a new JWT token for user. -/
def JWTManager.GenerateToken (lib : Lib) (j : JWTManager) (userID : Nat)
    (email username role : String) (clk : Clock) : (String × Option Error) × Clock :=
  let (claims, clk) := j.newClaims userID email username role clk
  let token := NewWithClaims SigningMethodHS256 claims
  (token.SignedString lib j.secretKey, clk)

/-- The key function ValidateToken hands to the parser. -/
def JWTManager.keyFunc (j : JWTManager) (token : Token) : Except Error String :=
  match token.Method with
  | .HMAC _ => .ok j.secretKey
  | _ => .error (.New "unexpected signing method")

/-- ValidateToken validates and parses JWT token. The type assertion
`token.Claims.(*JWTClaims)` always holds here (the parser fills the `JWTClaims`
value it was given), so only `token.Valid` is tested. -/
def JWTManager.ValidateToken (lib : Lib) (j : JWTManager) (tokenString : String)
    (clk : Clock) : Except Error JWTClaims × Clock :=
  match ParseWithClaims lib tokenString j.keyFunc clk with
  | (.error err, clk) => (.error err, clk)
  | (.ok token, clk) =>
    if token.Valid then (.ok token.Claims, clk)
    else (.error (.New "invalid token"), clk)

/-- Dynamically typed values (`any`) stored in the context or sent in a JSON body. -/
inductive Value
  | uint (n : Nat)
  | str (s : String)
  | bool (b : Bool)
  | other (tag : String)
  deriving DecidableEq, Repr

/-- gin.H literal, in source order. -/
abbrev H := List (String × Value)

def StatusUnauthorized : Nat := 401

def StatusForbidden : Nat := 403

/-- gin's `abortIndex`. -/
def abortIndex : Int := 63

/-- The parts of `*gin.Context` the middleware touches. `Header` gives the first
value of a request header, `Keys` is the per-request key/value store, `index`
the position in the handler chain, `Writer` the responses written so far.
`calls` is a ghost log of the token strings handed to the token manager. -/
structure Context where
  Header : String → Option String
  Keys : String → Option Value
  index : Int
  Writer : List (Nat × H)
  calls : List String

/-- A context as gin hands it to the first handler of a route. -/
def Context.fresh (header : String → Option String) : Context :=
  { Header := header, Keys := fun _ => none, index := -1, Writer := [], calls := [] }

/-- The gin call `c.GetHeader(key)`: the empty string when the header is absent. -/
def Context.GetHeader (c : Context) (key : String) : String :=
  (c.Header key).getD ""

/-- The gin call `c.JSON(code, obj)`. -/
def Context.JSON (c : Context) (code : Nat) (obj : H) : Context :=
  { c with Writer := c.Writer ++ [(code, obj)] }

/-- The gin call `c.Abort()`. -/
def Context.Abort (c : Context) : Context :=
  { c with index := abortIndex }

/-- The gin call `c.IsAborted()`. -/
def Context.IsAborted (c : Context) : Bool :=
  decide (abortIndex ≤ c.index)

/-- The gin call `c.Set(key, value)`. -/
def Context.Set (c : Context) (key : String) (value : Value) : Context :=
  { c with Keys := fun k => if k = key then some value else c.Keys k }

/-- The gin call `c.Get(key)`: `none` stands for `exists == false`. -/
def Context.Get (c : Context) (key : String) : Option Value :=
  c.Keys key

/-- Ghost step: record that the token manager is asked to validate `token`. -/
def Context.called (c : Context) (token : String) : Context :=
  { c with calls := c.calls ++ [token] }

/-- gin.HandlerFunc. The first argument is what `c.Next()` does inside this
handler, namely running the handlers that follow it in the chain. -/
abbrev HandlerFunc := (Context → Context) → Context → Context

/-- The gin call `c.Next()` seen from the handler at `c.index`, `rest` being the
handlers after it: `c.index++`, then each handler in turn while the index is
inside the chain; a handler that called `Next` or `Abort` itself has moved the
index past the end, one that simply returned lets the loop go on. -/
def Context.Next : List HandlerFunc → Context → Context
  | [], c => { c with index := c.index + 1 }
  | h :: rest, c =>
    let i := c.index + 1
    let c1 := h (Context.Next rest) { c with index := i }
    if c1.index = i then Context.Next rest c1
    else { c1 with index := c1.index + 1 }

/-- A final handler that calls neither `Next` nor `Abort`: the chain index is a
private field of gin, out of reach of the handler body. -/
def terminal (body : Context → Context) : HandlerFunc :=
  fun _ c => { body c with index := c.index }

/-- What the gates need from `*auth.JWTManager`: its `ValidateToken` method, as it
answers while the request is being served. -/
structure TokenManager where
  ValidateToken : String → Except Error JWTClaims

/-- The token manager a gate sees when the validator reads the clock `clk`. -/
def JWTManager.serving (lib : Lib) (j : JWTManager) (clk : Clock) : TokenManager :=
  { ValidateToken := fun tokenString => (j.ValidateToken lib tokenString clk).1 }

/-! ## internal/api/middleware/auth.go -/

/-- AuthMiddleware validates JWT tokens. -/
def AuthMiddleware (jwtManager : TokenManager) : HandlerFunc := fun next c =>
  let authHeader := c.GetHeader "Authorization"
  if authHeader = "" then
    (c.JSON StatusUnauthorized
      [("success", .bool false), ("message", .str "Authorization header required")]).Abort
  else
    -- Extract token from "Bearer <token>"
    let tokenParts := strings.Split authHeader ' '
    if tokenParts.length ≠ 2 ∨ tokenParts.getD 0 "" ≠ "Bearer" then
      (c.JSON StatusUnauthorized
        [("success", .bool false), ("message", .str "Invalid authorization header format")]).Abort
    else
      let token := tokenParts.getD 1 ""
      let c := c.called token
      match jwtManager.ValidateToken token with
      | .error _ =>
        (c.JSON StatusUnauthorized
          [("success", .bool false), ("message", .str "Invalid or expired token")]).Abort
      | .ok claims =>
        -- Store user info in context for use in handlers
        let c := c.Set "user_id" (.uint claims.UserID)
        let c := c.Set "user_email" (.str claims.Email)
        let c := c.Set "user_username" (.str claims.Username)
        let c := c.Set "user_role" (.str claims.Role)
        next c

/-- OptionalAuthMiddleware validates JWT tokens but doesn't require them. -/
def OptionalAuthMiddleware (jwtManager : TokenManager) : HandlerFunc := fun next c =>
  let authHeader := c.GetHeader "Authorization"
  let c :=
    if authHeader ≠ "" then
      let tokenParts := strings.Split authHeader ' '
      if tokenParts.length = 2 ∧ tokenParts.getD 0 "" = "Bearer" then
        let token := tokenParts.getD 1 ""
        let c := c.called token
        match jwtManager.ValidateToken token with
        | .ok claims =>
          let c := c.Set "user_id" (.uint claims.UserID)
          let c := c.Set "user_email" (.str claims.Email)
          let c := c.Set "user_username" (.str claims.Username)
          let c := c.Set "user_role" (.str claims.Role)
          c
        | .error _ => c
      else c
    else c
  next c

/-- AdminMiddleware requires admin role. -/
def AdminMiddleware : HandlerFunc := fun next c =>
  match c.Get "user_role" with
  | none =>
    (c.JSON StatusUnauthorized
      [("success", .bool false), ("message", .str "Authentication required")]).Abort
  | some role =>
    if role ≠ .str "admin" then
      (c.JSON StatusForbidden
        [("success", .bool false), ("message", .str "Admin privileges required")]).Abort
    else
      next c

/-! ## A plain-text wire format

An instance of `Lib`, to run the token operations on concrete inputs: a token is
a sequence of fields, every character of a field written after an underscore
and every field closed by a dot; numbers are written in decimal digits, lowest
digit first. -/

/-- One field on the wire. -/
def wireField : List Char → List Char
  | [] => ['.']
  | ch :: f => '_' :: ch :: wireField f

/-- A sequence of fields on the wire. -/
def wireFields : List (List Char) → List Char
  | [] => []
  | f :: fs => wireField f ++ wireFields fs

/-- Reads a sequence of fields back; `acc` is the field being read, reversed. -/
def readFields : List Char → List Char → Option (List (List Char))
  | [], [] => some []
  | [], _ :: _ => none
  | [x], acc => if x = '.' then some [acc.reverse] else none
  | x :: y :: rest, acc =>
    if x = '.' then (readFields (y :: rest) []).map (fun fs => acc.reverse :: fs)
    else if x = '_' then readFields rest (y :: acc)
    else none

/-- A natural number in decimal digits, lowest digit first. -/
def wireNat (n : Nat) : List Char :=
  (Nat.digits 10 n).map (fun d => Char.ofNat (48 + d))

/-- Reads a natural number back. -/
def readNat (cs : List Char) : Nat :=
  Nat.ofDigits 10 (cs.map (fun ch => ch.toNat - 48))

/-- An optional timestamp: empty when absent, else a sign and the magnitude. -/
def wireTime : Option Time → List Char
  | none => []
  | some t => (if 0 ≤ t then '+' else '-') :: wireNat t.natAbs

/-- Reads an optional timestamp back. -/
def readTime : List Char → Option Time
  | [] => none
  | s :: r => some (if s = '+' then (readNat r : Int) else - (readNat r : Int))

/-- The fields of the signed text: the method name, then the claims. -/
def plainText (alg : String) (c : JWTClaims) : List (List Char) :=
  [alg.data, wireNat c.UserID, c.Email.data, c.Username.data, c.Role.data, c.Subject.data,
    wireTime c.ExpiresAt, wireTime c.NotBefore, wireTime c.IssuedAt]

/-- Decoding of a token in the plain-text wire format. -/
def plainDecode (s : String) : Except Error Unverified :=
  match readFields s.data [] with
  | some [alg, uid, email, username, role, sub, exp, nbf, iat, sig] =>
    .ok { alg := some (String.mk alg),
          Claims := { UserID := readNat uid, Email := String.mk email,
                      Username := String.mk username, Role := String.mk role,
                      Subject := String.mk sub, ExpiresAt := readTime exp,
                      NotBefore := readTime nbf, IssuedAt := readTime iat },
          text := String.mk (wireFields [alg, uid, email, username, role, sub, exp, nbf, iat]),
          Signature := some (String.mk sig) }
  | _ => .error .TokenMalformed

/-- The plain-text instance of `Lib`; its MAC is the key followed by the text
(a function of hash, key and text, which is all the pipeline relies on). -/
def plainLib : Lib :=
  { hmac := fun h key text =>
      (match h with | .SHA256 => "256:" | .SHA384 => "384:" | .SHA512 => "512:") ++ key ++ ":" ++ text,
    SigningString := fun alg c => String.mk (wireFields (plainText alg c)),
    Compact := fun text sig => text ++ String.mk (wireField sig.data),
    Decode := plainDecode }

/-! ## Statement helpers -/

/-- The JSON body of every rejection: `success` false and a message. -/
def failure (message : String) : H :=
  [("success", .bool false), ("message", .str message)]

/-- A gate's short-circuit on `c`: the response is written and the chain aborted. -/
def reject (c : Context) (code : Nat) (message : String) : Context :=
  (c.JSON code (failure message)).Abort

/-- The context after the four identity fields of `claims` were stored. -/
def withIdentity (c : Context) (claims : JWTClaims) : Context :=
  (((c.Set "user_id" (.uint claims.UserID)).Set "user_email" (.str claims.Email)).Set
    "user_username" (.str claims.Username)).Set "user_role" (.str claims.Role)

/-- The Authorization header of the request, split on the space character. -/
def tokenParts (c : Context) : List String :=
  strings.Split (c.GetHeader "Authorization") ' '

/-- The request carries a well-formed `Bearer <token>` header and the token
manager accepts the token with `claims`. -/
def Authenticates (jm : TokenManager) (header : String → Option String)
    (claims : JWTClaims) : Prop :=
  (Context.fresh header).GetHeader "Authorization" ≠ ""
  ∧ (tokenParts (Context.fresh header)).length = 2
  ∧ (tokenParts (Context.fresh header)).getD 0 "" = "Bearer"
  ∧ jm.ValidateToken ((tokenParts (Context.fresh header)).getD 1 "") = .ok claims

/-- The bearer token of a request: the second part of its Authorization header. -/
def bearerToken (header : String → Option String) : String :=
  (tokenParts (Context.fresh header)).getD 1 ""

/-- Authentication of the request fails: no header, a malformed header or a
token the token manager refuses. -/
def AuthFails (jm : TokenManager) (header : String → Option String) : Prop :=
  (Context.fresh header).GetHeader "Authorization" = ""
  ∨ ((tokenParts (Context.fresh header)).length ≠ 2
      ∨ (tokenParts (Context.fresh header)).getD 0 "" ≠ "Bearer")
  ∨ ∃ e, jm.ValidateToken (bearerToken header) = .error e

/-- The time `now` lies within the window in which the code accepts `claims`: not
before `NotBefore`, and strictly before `ExpiresAt`. -/
def inWindow (claims : JWTClaims) (now : Time) : Prop :=
  (∀ nbf, claims.NotBefore = some nbf → nbf ≤ now)
  ∧ (∀ exp, claims.ExpiresAt = some exp → now < exp)

/-- The result of the parser once signature and key agree: the claims when the
validator passes, else every failed check joined under `TokenInvalidClaims`. -/
def validated (claims : JWTClaims) (now : Time) : Except Error JWTClaims :=
  match Validate claims now with
  | [] => .ok claims
  | err :: errs => .error (.TokenInvalidClaims (err :: errs))

/-- A clock that advances a tenth of a second at every read, from 0.2 s. -/
def creepingClock : Clock := { readings := fun n => 200000000 + (n : Int) * 100000000 }

/-- A clock whose n-th read returns `n` seconds. -/
def tickingClock : Clock := { readings := fun n => (n : Int) * Second }

/-- A clock stopped at `t`. -/
def stoppedClock (t : Time) : Clock := { readings := fun _ => t }

/-- Claims of a sample user, valid from 0 s to 3600 s. -/
def sampleClaims : JWTClaims :=
  { UserID := 7, Email := "a@b.c", Username := "ayse", Role := "user", Subject := "a@b.c",
    ExpiresAt := some (3600 * Second), NotBefore := some 0, IssuedAt := some 0 }

/-- A token for `sampleClaims` signed with HS512 and the key `secret`, in the
plain-text wire format. -/
def hs512Token : String :=
  ((NewWithClaims (.HMAC .SHA512) sampleClaims).SignedString plainLib "secret").1

/-- A token for `sampleClaims` whose header names RS256, in the plain-text wire format. -/
def rs256Token : String :=
  plainLib.Compact (plainLib.SigningString "RS256" sampleClaims) "sig"

/-- A token manager that accepts the token `tok` for `sampleClaims` and nothing else. -/
def sampleManager : TokenManager :=
  { ValidateToken := fun t => if t = "tok" then .ok sampleClaims else .error .TokenMalformed }

/-- The headers of a request carrying `Authorization: Bearer tok`. -/
def sampleHeader : String → Option String :=
  fun k => if k = "Authorization" then some "Bearer tok" else none

/-! ## Properties -/

theorem splitChars_of_not_mem (sep : Char) (l : List Char) (h : sep ∉ l) :
    splitChars sep l = [l] := by
  induction l with
  | nil => rfl
  | cons a l ih =>
    have ha : a ≠ sep := fun e => h (by simp [e])
    have hl : sep ∉ l := fun e => h (by simp [e])
    simp [splitChars, ha, ih hl]

/-- The split of sample headers, as Go computes it. -/
theorem Split_samples :
    strings.Split "Bearer  t" ' ' = ["Bearer", "", "t"]
    ∧ strings.Split "Bearer" ' ' = ["Bearer"]
    ∧ strings.Split "Bearer " ' ' = ["Bearer", ""]
    ∧ strings.Split " a b" ' ' = ["", "a", "b"]
    ∧ strings.Split "" ' ' = [""] := by
  decide

theorem Split_bearer (t : String) (h : ' ' ∉ t.data) :
    strings.Split ("Bearer " ++ t) ' ' = ["Bearer", t] := by
  have hd : ("Bearer " ++ t).data = 'B' :: 'e' :: 'a' :: 'r' :: 'e' :: 'r' :: ' ' :: t.data := rfl
  simp [strings.Split, hd, splitChars, splitChars_of_not_mem _ _ h]

/-- IsValidPassword accepts exactly the passwords of six bytes or more. -/
theorem IsValidPassword_iff_bytes (p : String) :
    IsValidPassword p = true ↔ 6 ≤ p.utf8ByteSize := by
  unfold IsValidPassword
  split <;> simp <;> omega

/-- C9: IsValidPassword accepts the five-character password `şifre`, whose UTF-8
encoding has six bytes: the length test counts bytes, not characters. -/
theorem IsValidPassword_five_characters :
    IsValidPassword "şifre" = true ∧ "şifre".length = 5 ∧ "şifre".utf8ByteSize = 6 := by
  decide

/-- C4: the role gate decides from the `user_role` entry alone. Key absent: 401
and abort; any value other than the string `admin`: 403 and abort; the string
`admin`: the next stage runs on the unchanged context and nothing is written.
Two contexts with the same `user_role` entry get the same decision, and the
key/value store is never changed. -/
theorem AdminMiddleware_decision (c : Context) :
    (c.Keys "user_role" = none →
      ∀ next, AdminMiddleware next c = reject c 401 "Authentication required")
    ∧ (∀ v, c.Keys "user_role" = some v → v ≠ .str "admin" →
      ∀ next, AdminMiddleware next c = reject c 403 "Admin privileges required")
    ∧ (c.Keys "user_role" = some (.str "admin") → ∀ next, AdminMiddleware next c = next c)
    ∧ (∀ v ∈ [Value.str "user", .str "Admin", .str ""], c.Keys "user_role" = some v →
      ∀ next, AdminMiddleware next c = reject c 403 "Admin privileges required")
    ∧ (∀ c2 : Context, c2.Keys "user_role" = c.Keys "user_role" →
      ((∃ code m, (∀ next, AdminMiddleware next c = reject c code m)
          ∧ (∀ next, AdminMiddleware next c2 = reject c2 code m))
        ∨ ((∀ next, AdminMiddleware next c = next c)
          ∧ (∀ next, AdminMiddleware next c2 = next c2))))
    ∧ (∀ code m, (reject c code m).Keys = c.Keys ∧ (reject c code m).Writer = c.Writer ++ [(code, failure m)]
        ∧ (reject c code m).IsAborted = true) := by
  have h1 : c.Keys "user_role" = none →
      ∀ next, AdminMiddleware next c = reject c 401 "Authentication required" := by
    intro h next
    simp [AdminMiddleware, Context.Get, h, reject, failure, StatusUnauthorized]
  have h2 : ∀ (c : Context) v, c.Keys "user_role" = some v → v ≠ .str "admin" →
      ∀ next, AdminMiddleware next c = reject c 403 "Admin privileges required" := by
    intro c v h hv next
    simp [AdminMiddleware, Context.Get, h, hv, reject, failure, StatusForbidden]
  have h3 : ∀ (c : Context), c.Keys "user_role" = some (.str "admin") →
      ∀ next, AdminMiddleware next c = next c := by
    intro c h next
    simp [AdminMiddleware, Context.Get, h]
  refine ⟨h1, h2 c, h3 c, ?_, ?_, ?_⟩
  · intro v hv h
    refine h2 c v h ?_
    simp at hv
    rcases hv with rfl | rfl | rfl <;> decide
  · intro c2 h
    cases hk : c.Keys "user_role" with
    | none =>
      left
      refine ⟨401, "Authentication required", h1 hk, ?_⟩
      intro next
      simp [AdminMiddleware, Context.Get, h, hk, reject, failure, StatusUnauthorized]
    | some v =>
      by_cases hv : v = .str "admin"
      · right
        subst hv
        exact ⟨h3 c hk, h3 c2 (h.trans hk)⟩
      · left
        exact ⟨403, "Admin privileges required", h2 c v hk hv, h2 c2 v (h.trans hk) hv⟩
  · intro code m
    simp [reject, Context.JSON, Context.Abort, Context.IsAborted, abortIndex]

theorem AuthMiddleware_of_empty (jm : TokenManager) (c : Context)
    (h : c.GetHeader "Authorization" = "") (next : Context → Context) :
    AuthMiddleware jm next c = reject c 401 "Authorization header required" := by
  simp [AuthMiddleware, h, reject, failure, StatusUnauthorized]

theorem AuthMiddleware_of_malformed (jm : TokenManager) (c : Context)
    (h : c.GetHeader "Authorization" ≠ "")
    (hp : (tokenParts c).length ≠ 2
      ∨ (tokenParts c).getD 0 "" ≠ "Bearer")
    (next : Context → Context) :
    AuthMiddleware jm next c = reject c 401 "Invalid authorization header format" := by
  unfold tokenParts at *
  unfold AuthMiddleware
  simp only [if_neg h, if_pos hp, reject, failure, StatusUnauthorized]

theorem AuthMiddleware_of_invalid (jm : TokenManager) (c : Context)
    (h : c.GetHeader "Authorization" ≠ "")
    (hl : (tokenParts c).length = 2)
    (hb : (tokenParts c).getD 0 "" = "Bearer")
    (e : Error)
    (hv : jm.ValidateToken ((tokenParts c).getD 1 "")
      = .error e)
    (next : Context → Context) :
    AuthMiddleware jm next c
      = reject (c.called ((tokenParts c).getD 1 ""))
          401 "Invalid or expired token" := by
  have hp : ¬ ((tokenParts c).length ≠ 2
      ∨ (tokenParts c).getD 0 "" ≠ "Bearer") := by
    intro hh
    rcases hh with h1 | h1
    · exact h1 hl
    · exact h1 hb
  unfold tokenParts at *
  unfold AuthMiddleware
  simp only [if_neg h, if_neg hp, hv, reject, failure, StatusUnauthorized]

theorem AuthMiddleware_of_valid (jm : TokenManager) (c : Context)
    (h : c.GetHeader "Authorization" ≠ "")
    (hl : (tokenParts c).length = 2)
    (hb : (tokenParts c).getD 0 "" = "Bearer")
    (claims : JWTClaims)
    (hv : jm.ValidateToken ((tokenParts c).getD 1 "")
      = .ok claims)
    (next : Context → Context) :
    AuthMiddleware jm next c
      = next (withIdentity
          (c.called ((tokenParts c).getD 1 "")) claims) := by
  have hp : ¬ ((tokenParts c).length ≠ 2
      ∨ (tokenParts c).getD 0 "" ≠ "Bearer") := by
    intro hh
    rcases hh with h1 | h1
    · exact h1 hl
    · exact h1 hb
  unfold tokenParts at *
  unfold AuthMiddleware
  simp only [if_neg h, if_neg hp, hv, withIdentity]

theorem withIdentity_frame (c : Context) (claims : JWTClaims) :
    (withIdentity c claims).Writer = c.Writer ∧ (withIdentity c claims).index = c.index
    ∧ (withIdentity c claims).Header = c.Header ∧ (withIdentity c claims).calls = c.calls := by
  simp [withIdentity, Context.Set]

theorem withIdentity_keys (c : Context) (claims : JWTClaims) :
    (withIdentity c claims).Keys "user_id" = some (.uint claims.UserID)
    ∧ (withIdentity c claims).Keys "user_email" = some (.str claims.Email)
    ∧ (withIdentity c claims).Keys "user_username" = some (.str claims.Username)
    ∧ (withIdentity c claims).Keys "user_role" = some (.str claims.Role)
    ∧ ∀ k, k ≠ "user_id" → k ≠ "user_email" → k ≠ "user_username" → k ≠ "user_role" →
        (withIdentity c claims).Keys k = c.Keys k := by
  refine ⟨?_, ?_, ?_, ?_, ?_⟩
  · simp [withIdentity, Context.Set]
  · simp [withIdentity, Context.Set]
  · simp [withIdentity, Context.Set]
  · simp [withIdentity, Context.Set]
  · intro k h1 h2 h3 h4
    simp [withIdentity, Context.Set, h1, h2, h3, h4]

theorem reject_frame (c : Context) (code : Nat) (m : String) :
    (reject c code m).Keys = c.Keys ∧ (reject c code m).Header = c.Header
    ∧ (reject c code m).calls = c.calls
    ∧ (reject c code m).Writer = c.Writer ++ [(code, failure m)]
    ∧ (reject c code m).IsAborted = true := by
  simp [reject, Context.JSON, Context.Abort, Context.IsAborted, abortIndex]

/-- C1: the required gate short-circuits exactly in three cases, tried in order:
(1) empty or absent Authorization header, (2) the header split on the space
character is not two parts or its first part is not `Bearer`, (3) the token
manager fails on the second part, whatever the error. Each time the response is
401 with `success` false and the message of the case, the chain is aborted, the
next stage is not run and the key/value store is unchanged; the token manager is
not called in cases (1) and (2) (the call log is unchanged). -/
theorem AuthMiddleware_rejects (jm : TokenManager) (c : Context) :
    (c.GetHeader "Authorization" = "" →
      ∀ next, AuthMiddleware jm next c = reject c 401 "Authorization header required")
    ∧ (c.GetHeader "Authorization" ≠ "" →
      ((tokenParts c).length ≠ 2 ∨ (tokenParts c).getD 0 "" ≠ "Bearer") →
      ∀ next, AuthMiddleware jm next c = reject c 401 "Invalid authorization header format")
    ∧ (c.GetHeader "Authorization" ≠ "" →
      (tokenParts c).length = 2 → (tokenParts c).getD 0 "" = "Bearer" →
      ∀ e, jm.ValidateToken ((tokenParts c).getD 1 "") = .error e →
      ∀ next, AuthMiddleware jm next c
        = reject (c.called ((tokenParts c).getD 1 "")) 401 "Invalid or expired token")
    ∧ (∀ h ∈ ["Basic xyz", "bearer t", "Bearer", "Bearer  t"],
      c.GetHeader "Authorization" = h →
      ∀ next, AuthMiddleware jm next c = reject c 401 "Invalid authorization header format")
    ∧ ((∃ m c0, c0.Keys = c.Keys ∧ c0.Writer = c.Writer
          ∧ ∀ next, AuthMiddleware jm next c = reject c0 401 m)
        ↔ (c.GetHeader "Authorization" = ""
          ∨ ((tokenParts c).length ≠ 2 ∨ (tokenParts c).getD 0 "" ≠ "Bearer")
          ∨ ∃ e, jm.ValidateToken ((tokenParts c).getD 1 "") = .error e))
    ∧ (∀ m, (reject c 401 m).Keys = c.Keys ∧ (reject c 401 m).calls = c.calls
        ∧ (reject c 401 m).Writer = c.Writer ++ [(401, failure m)]
        ∧ (reject c 401 m).IsAborted = true)
    ∧ (∀ m t, (reject (c.called t) 401 m).Keys = c.Keys
        ∧ (reject (c.called t) 401 m).Writer = c.Writer ++ [(401, failure m)]
        ∧ (reject (c.called t) 401 m).IsAborted = true) := by
  refine ⟨fun h next => AuthMiddleware_of_empty jm c h next,
    fun h hp next => AuthMiddleware_of_malformed jm c h hp next,
    fun h hl hb e hv next => AuthMiddleware_of_invalid jm c h hl hb e hv next, ?_, ?_, ?_, ?_⟩
  · intro h hh hc next
    have hne : c.GetHeader "Authorization" ≠ "" := by
      rw [hc]
      simp at hh
      rcases hh with rfl | rfl | rfl | rfl <;> decide
    refine AuthMiddleware_of_malformed jm c hne ?_ next
    unfold tokenParts
    rw [hc]
    simp at hh
    rcases hh with rfl | rfl | rfl | rfl <;> decide
  · constructor
    · rintro ⟨m, c0, hk, hw, heq⟩
      by_contra hcon
      push_neg at hcon
      obtain ⟨h, ⟨hl, hb⟩, hv⟩ := hcon
      cases hr : jm.ValidateToken ((tokenParts c).getD 1 "") with
      | error e => exact hv e hr
      | ok claims =>
        have h1 := AuthMiddleware_of_valid jm c h hl hb claims hr id
        have h2 := heq id
        rw [h1] at h2
        have h3 := congrArg (fun x => x.Writer.length) h2
        simp [withIdentity, Context.Set, Context.called, reject, Context.JSON, Context.Abort,
          hw] at h3
    · intro hcases
      by_cases h : c.GetHeader "Authorization" = ""
      · exact ⟨_, c, rfl, rfl, fun next => AuthMiddleware_of_empty jm c h next⟩
      · by_cases hp : (tokenParts c).length ≠ 2 ∨ (tokenParts c).getD 0 "" ≠ "Bearer"
        · exact ⟨_, c, rfl, rfl, fun next => AuthMiddleware_of_malformed jm c h hp next⟩
        · rcases hcases with h0 | h0 | ⟨e, he⟩
          · exact absurd h0 h
          · exact absurd h0 hp
          · push_neg at hp
            exact ⟨_, c.called ((tokenParts c).getD 1 ""), rfl, rfl,
              fun next => AuthMiddleware_of_invalid jm c h hp.1 hp.2 e he next⟩
  · intro m
    simp [reject, Context.JSON, Context.Abort, Context.IsAborted, abortIndex]
  · intro m t
    simp [reject, Context.JSON, Context.Abort, Context.IsAborted, abortIndex, Context.called]

theorem tokenParts_bearer (c : Context) (t : String)
    (hh : c.GetHeader "Authorization" = "Bearer " ++ t) (hs : ' ' ∉ t.data) :
    c.GetHeader "Authorization" ≠ "" ∧ tokenParts c = ["Bearer", t] := by
  constructor
  · rw [hh]
    intro h
    have h2 := congrArg String.length h
    simp at h2
    have h3 : "Bearer ".length = 7 := by decide
    have h4 : "".length = 0 := by decide
    omega
  · unfold tokenParts
    rw [hh]
    exact Split_bearer t hs

/-- C2: when the Authorization header is `Bearer ` followed by a token `t` without
a space and the token manager accepts `t` with claims `claims`, the required gate
runs the next stage, on a context where nothing was written, the chain index is
untouched, the four identity keys hold the fields of `claims` and every other
key is as before. -/
theorem AuthMiddleware_accepts (jm : TokenManager) (c : Context) (t : String)
    (claims : JWTClaims)
    (hh : c.GetHeader "Authorization" = "Bearer " ++ t) (hs : ' ' ∉ t.data)
    (hv : jm.ValidateToken t = .ok claims) :
    (∀ next, AuthMiddleware jm next c = next (withIdentity (c.called t) claims))
    ∧ (withIdentity (c.called t) claims).Writer = c.Writer
    ∧ (withIdentity (c.called t) claims).index = c.index
    ∧ (withIdentity (c.called t) claims).IsAborted = c.IsAborted
    ∧ (withIdentity (c.called t) claims).Header = c.Header
    ∧ (withIdentity (c.called t) claims).Keys "user_id" = some (.uint claims.UserID)
    ∧ (withIdentity (c.called t) claims).Keys "user_email" = some (.str claims.Email)
    ∧ (withIdentity (c.called t) claims).Keys "user_username" = some (.str claims.Username)
    ∧ (withIdentity (c.called t) claims).Keys "user_role" = some (.str claims.Role)
    ∧ ∀ k, k ≠ "user_id" → k ≠ "user_email" → k ≠ "user_username" → k ≠ "user_role" →
        (withIdentity (c.called t) claims).Keys k = c.Keys k := by
  obtain ⟨hne, hp⟩ := tokenParts_bearer c t hh hs
  have hk := withIdentity_keys (c.called t) claims
  have hf := withIdentity_frame (c.called t) claims
  refine ⟨?_, hf.1, hf.2.1, ?_, hf.2.2.1, hk.1, hk.2.1, hk.2.2.1, hk.2.2.2.1, hk.2.2.2.2⟩
  · intro next
    have h := AuthMiddleware_of_valid jm c hne (by rw [hp]; rfl) (by rw [hp]; rfl) claims
      (by rw [hp]; exact hv) next
    rw [hp] at h
    exact h
  · simp [Context.IsAborted, withIdentity, Context.Set, Context.called]

theorem OptionalAuthMiddleware_of_empty (jm : TokenManager) (c : Context)
    (h : c.GetHeader "Authorization" = "") (next : Context → Context) :
    OptionalAuthMiddleware jm next c = next c := by
  simp [OptionalAuthMiddleware, h]

theorem OptionalAuthMiddleware_of_malformed (jm : TokenManager) (c : Context)
    (hp : (tokenParts c).length ≠ 2 ∨ (tokenParts c).getD 0 "" ≠ "Bearer")
    (next : Context → Context) :
    OptionalAuthMiddleware jm next c = next c := by
  have hq : ¬ ((tokenParts c).length = 2 ∧ (tokenParts c).getD 0 "" = "Bearer") := by
    intro hh
    rcases hp with h1 | h1
    · exact h1 hh.1
    · exact h1 hh.2
  unfold tokenParts at *
  unfold OptionalAuthMiddleware
  simp only [if_neg hq]
  split <;> rfl

theorem OptionalAuthMiddleware_of_invalid (jm : TokenManager) (c : Context)
    (h : c.GetHeader "Authorization" ≠ "")
    (hl : (tokenParts c).length = 2) (hb : (tokenParts c).getD 0 "" = "Bearer")
    (e : Error) (hv : jm.ValidateToken ((tokenParts c).getD 1 "") = .error e)
    (next : Context → Context) :
    OptionalAuthMiddleware jm next c = next (c.called ((tokenParts c).getD 1 "")) := by
  unfold tokenParts at *
  unfold OptionalAuthMiddleware
  simp only [if_pos h, if_pos (And.intro hl hb), hv]

theorem OptionalAuthMiddleware_of_valid (jm : TokenManager) (c : Context)
    (h : c.GetHeader "Authorization" ≠ "")
    (hl : (tokenParts c).length = 2) (hb : (tokenParts c).getD 0 "" = "Bearer")
    (claims : JWTClaims) (hv : jm.ValidateToken ((tokenParts c).getD 1 "") = .ok claims)
    (next : Context → Context) :
    OptionalAuthMiddleware jm next c
      = next (withIdentity (c.called ((tokenParts c).getD 1 "")) claims) := by
  unfold tokenParts at *
  unfold OptionalAuthMiddleware
  simp only [if_pos h, if_pos (And.intro hl hb), hv, withIdentity]

/-- C3: the optional gate always runs the next stage, on a context `c2` where
nothing was written and the chain index is untouched. Either the required gate
runs the next stage too, on the very same context `c2` (identity fields set from
the validated claims), or the required gate rejects with 401 (empty header,
malformed header or a failure of the token manager) and the key/value store of
`c2` is the one the request came with; an empty store stays empty. -/
theorem OptionalAuthMiddleware_continues (jm : TokenManager) (c : Context) :
    ∃ c2 : Context, (∀ next, OptionalAuthMiddleware jm next c = next c2)
      ∧ c2.Writer = c.Writer ∧ c2.index = c.index ∧ c2.IsAborted = c.IsAborted
      ∧ c2.Header = c.Header
      ∧ ((∃ claims, jm.ValidateToken ((tokenParts c).getD 1 "") = .ok claims
            ∧ c.GetHeader "Authorization" ≠ ""
            ∧ (tokenParts c).length = 2 ∧ (tokenParts c).getD 0 "" = "Bearer"
            ∧ c2 = withIdentity (c.called ((tokenParts c).getD 1 "")) claims
            ∧ ∀ next, AuthMiddleware jm next c = next c2)
        ∨ ((c.GetHeader "Authorization" = ""
              ∨ ((tokenParts c).length ≠ 2 ∨ (tokenParts c).getD 0 "" ≠ "Bearer")
              ∨ ∃ e, jm.ValidateToken ((tokenParts c).getD 1 "") = .error e)
            ∧ (∃ m c0, c0.Keys = c.Keys ∧ c0.Writer = c.Writer
                ∧ ∀ next, AuthMiddleware jm next c = reject c0 401 m)
            ∧ c2.Keys = c.Keys
            ∧ (c.Keys = (fun _ => none) → c2.Keys = (fun _ => none)))) := by
  by_cases h : c.GetHeader "Authorization" = ""
  · refine ⟨c, fun next => OptionalAuthMiddleware_of_empty jm c h next, rfl, rfl, rfl, rfl, ?_⟩
    right
    exact ⟨Or.inl h, ⟨_, c, rfl, rfl, fun next => AuthMiddleware_of_empty jm c h next⟩, rfl,
      fun hk => hk⟩
  · by_cases hp : (tokenParts c).length ≠ 2 ∨ (tokenParts c).getD 0 "" ≠ "Bearer"
    · refine ⟨c, fun next => OptionalAuthMiddleware_of_malformed jm c hp next,
        rfl, rfl, rfl, rfl, ?_⟩
      right
      exact ⟨Or.inr (Or.inl hp),
        ⟨_, c, rfl, rfl, fun next => AuthMiddleware_of_malformed jm c h hp next⟩, rfl,
        fun hk => hk⟩
    · push_neg at hp
      cases hr : jm.ValidateToken ((tokenParts c).getD 1 "") with
      | error e =>
        refine ⟨c.called ((tokenParts c).getD 1 ""),
          fun next => OptionalAuthMiddleware_of_invalid jm c h hp.1 hp.2 e hr next,
          rfl, rfl, rfl, rfl, ?_⟩
        right
        exact ⟨Or.inr (Or.inr ⟨e, rfl⟩),
          ⟨_, c.called ((tokenParts c).getD 1 ""), rfl, rfl,
            fun next => AuthMiddleware_of_invalid jm c h hp.1 hp.2 e hr next⟩, rfl,
          fun hk => hk⟩
      | ok claims =>
        have hf := withIdentity_frame (c.called ((tokenParts c).getD 1 "")) claims
        refine ⟨withIdentity (c.called ((tokenParts c).getD 1 "")) claims,
          fun next => OptionalAuthMiddleware_of_valid jm c h hp.1 hp.2 claims hr next,
          hf.1, hf.2.1, ?_, hf.2.2.1, ?_⟩
        · simp [Context.IsAborted, withIdentity, Context.Set, Context.called]
        · left
          exact ⟨claims, rfl, h, hp.1, hp.2, rfl,
            fun next => AuthMiddleware_of_valid jm c h hp.1 hp.2 claims hr next⟩

theorem AdminMiddleware_of_absent (c : Context) (h : c.Keys "user_role" = none)
    (next : Context → Context) :
    AdminMiddleware next c = reject c 401 "Authentication required" := by
  simp [AdminMiddleware, Context.Get, h, reject, failure, StatusUnauthorized]

theorem AdminMiddleware_of_other (c : Context) (v : Value) (h : c.Keys "user_role" = some v)
    (hv : v ≠ .str "admin") (next : Context → Context) :
    AdminMiddleware next c = reject c 403 "Admin privileges required" := by
  simp [AdminMiddleware, Context.Get, h, hv, reject, failure, StatusForbidden]

theorem AdminMiddleware_of_admin (c : Context) (h : c.Keys "user_role" = some (.str "admin"))
    (next : Context → Context) :
    AdminMiddleware next c = next c := by
  simp [AdminMiddleware, Context.Get, h]

theorem Next_cons (h : HandlerFunc) (rest : List HandlerFunc) (c : Context) :
    Context.Next (h :: rest) c
      = if (h (Context.Next rest) { c with index := c.index + 1 }).index = c.index + 1 then
          Context.Next rest (h (Context.Next rest) { c with index := c.index + 1 })
        else
          { h (Context.Next rest) { c with index := c.index + 1 } with
            index := (h (Context.Next rest) { c with index := c.index + 1 }).index + 1 } := rfl

/-- A chain whose first handler short-circuits a fresh request: nothing after it runs. -/
theorem Next_of_reject (h : HandlerFunc) (rest : List HandlerFunc)
    (header : String → Option String) (c0 : Context) (code : Nat) (m : String)
    (hr : ∀ next, h next { Context.fresh header with index := 0 } = reject c0 code m) :
    Context.Next (h :: rest) (Context.fresh header) = { reject c0 code m with index := 64 } := by
  have e := hr (Context.Next rest)
  simp only [Context.fresh] at e
  rw [Next_cons]
  simp only [Context.fresh]
  norm_num
  rw [e]
  simp [reject, Context.Abort, Context.JSON, abortIndex]

theorem route_admin (jm : TokenManager) (header : String → Option String)
    (body : Context → Context) (claims : JWTClaims)
    (ha : Authenticates jm header claims) (hr : claims.Role = "admin") :
    Context.Next [AuthMiddleware jm, AdminMiddleware, terminal body] (Context.fresh header)
      = { body { withIdentity ((Context.fresh header).called (bearerToken header)) claims
                 with index := 2 }
          with index := 5 } := by
  obtain ⟨h, hl, hb, hv⟩ := ha
  have e1 := AuthMiddleware_of_valid jm { Context.fresh header with index := 0 } h hl hb claims hv
  rw [Next_cons]
  simp only [Context.fresh] at e1 ⊢
  norm_num
  rw [e1, Next_cons, AdminMiddleware_of_admin _ (by simp [withIdentity, Context.Set, hr]),
    Next_cons]
  simp [terminal, Context.Next, withIdentity, Context.Set, Context.called, Context.fresh,
    tokenParts, Context.GetHeader, bearerToken]

theorem route_not_admin (jm : TokenManager) (header : String → Option String)
    (body : Context → Context) (claims : JWTClaims)
    (ha : Authenticates jm header claims) (hr : claims.Role ≠ "admin") :
    Context.Next [AuthMiddleware jm, AdminMiddleware, terminal body] (Context.fresh header)
      = { reject { withIdentity ((Context.fresh header).called (bearerToken header)) claims
                   with index := 1 } 403 "Admin privileges required"
          with index := 65 } := by
  obtain ⟨h, hl, hb, hv⟩ := ha
  have e1 := AuthMiddleware_of_valid jm { Context.fresh header with index := 0 } h hl hb claims hv
  rw [Next_cons]
  simp only [Context.fresh] at e1 ⊢
  norm_num
  rw [e1, Next_cons, AdminMiddleware_of_other _ (.str claims.Role)
    (by simp [withIdentity, Context.Set]) (by simpa using hr)]
  simp [withIdentity, Context.Set, Context.called, Context.fresh,
    tokenParts, Context.GetHeader, bearerToken, reject, Context.JSON, Context.Abort, abortIndex]

theorem authFails_or_authenticates (jm : TokenManager) (header : String → Option String) :
    AuthFails jm header ∨ ∃ claims, Authenticates jm header claims := by
  unfold AuthFails Authenticates bearerToken
  by_cases h : (Context.fresh header).GetHeader "Authorization" = ""
  · exact Or.inl (Or.inl h)
  · by_cases hp : (tokenParts (Context.fresh header)).length ≠ 2
        ∨ (tokenParts (Context.fresh header)).getD 0 "" ≠ "Bearer"
    · exact Or.inl (Or.inr (Or.inl hp))
    · push_neg at hp
      cases hr : jm.ValidateToken ((tokenParts (Context.fresh header)).getD 1 "") with
      | error e => exact Or.inl (Or.inr (Or.inr ⟨e, rfl⟩))
      | ok claims => exact Or.inr ⟨claims, h, hp.1, hp.2, rfl⟩

theorem route_auth_fails (jm : TokenManager) (header : String → Option String)
    (hf : AuthFails jm header) :
    ∃ m c0, m ∈ ["Authorization header required", "Invalid authorization header format",
        "Invalid or expired token"]
      ∧ c0.Keys = (fun _ => none) ∧ c0.Writer = []
      ∧ ∀ rest, Context.Next (AuthMiddleware jm :: rest) (Context.fresh header)
          = { reject c0 401 m with index := 64 } := by
  by_cases h : (Context.fresh header).GetHeader "Authorization" = ""
  · exact ⟨_, { Context.fresh header with index := 0 }, by simp, rfl, rfl, fun rest =>
      Next_of_reject _ rest header _ 401 _
        (fun next => AuthMiddleware_of_empty jm { Context.fresh header with index := 0 } h next)⟩
  · by_cases hp : (tokenParts (Context.fresh header)).length ≠ 2
        ∨ (tokenParts (Context.fresh header)).getD 0 "" ≠ "Bearer"
    · exact ⟨_, { Context.fresh header with index := 0 }, by simp, rfl, rfl, fun rest =>
        Next_of_reject _ rest header _ 401 _
          (fun next =>
            AuthMiddleware_of_malformed jm { Context.fresh header with index := 0 } h hp next)⟩
    · rcases hf with h0 | h0 | ⟨e, he⟩
      · exact absurd h0 h
      · exact absurd h0 hp
      · push_neg at hp
        exact ⟨_, ({ Context.fresh header with index := 0 } : Context).called (bearerToken header),
          by simp, rfl, rfl, fun rest =>
          Next_of_reject _ rest header _ 401 _
            (fun next =>
              AuthMiddleware_of_invalid jm { Context.fresh header with index := 0 }
                h hp.1 hp.2 e he next)⟩

theorem route_optional_auth_fails (jm : TokenManager) (header : String → Option String)
    (hf : AuthFails jm header) :
    ∃ c0 : Context, c0.Keys = (fun _ => none) ∧ c0.Writer = []
      ∧ ∀ body, Context.Next [OptionalAuthMiddleware jm, AdminMiddleware, terminal body]
            (Context.fresh header)
          = { reject c0 401 "Authentication required" with index := 65 } := by
  have key : ∀ c1 : Context, c1.Keys = (fun _ => none) → c1.Writer = [] → c1.index = 0 →
      (∀ next, OptionalAuthMiddleware jm next { Context.fresh header with index := 0 } = next c1) →
      ∀ body, Context.Next [OptionalAuthMiddleware jm, AdminMiddleware, terminal body]
            (Context.fresh header)
          = { reject { c1 with index := 1 } 401 "Authentication required" with index := 65 } := by
    intro c1 hk hw hi e body
    have e1 := e (Context.Next [AdminMiddleware, terminal body])
    simp only [Context.fresh] at e1
    rw [Next_cons]
    simp only [Context.fresh]
    norm_num
    rw [e1, Next_cons, AdminMiddleware_of_absent _ (by simp [hk])]
    simp [reject, Context.JSON, Context.Abort, abortIndex, hi]
  by_cases h : (Context.fresh header).GetHeader "Authorization" = ""
  · exact ⟨_, rfl, rfl, key { Context.fresh header with index := 0 } rfl rfl rfl
      (fun next => OptionalAuthMiddleware_of_empty jm
        { Context.fresh header with index := 0 } h next)⟩
  · by_cases hp : (tokenParts (Context.fresh header)).length ≠ 2
        ∨ (tokenParts (Context.fresh header)).getD 0 "" ≠ "Bearer"
    · exact ⟨_, rfl, rfl, key { Context.fresh header with index := 0 } rfl rfl rfl
        (fun next => OptionalAuthMiddleware_of_malformed jm
          { Context.fresh header with index := 0 } hp next)⟩
    · rcases hf with h0 | h0 | ⟨e, he⟩
      · exact absurd h0 h
      · exact absurd h0 hp
      · push_neg at hp
        exact ⟨_, rfl, rfl,
          key (({ Context.fresh header with index := 0 } : Context).called (bearerToken header))
            rfl rfl rfl
            (fun next => OptionalAuthMiddleware_of_invalid jm
              { Context.fresh header with index := 0 } h hp.1 hp.2 e he next)⟩

/-- C10: on the route [required gate, role gate, handler], served from a fresh
context, the handler body runs (once, on the context holding the identity
fields) when the request authenticates with a role claim equal to `admin`; a
validated request with any other role claim, the empty one included, ends with
the role gate's 403 and the body is not run; a request whose authentication fails
ends with the required gate's own 401, neither the role gate nor the body runs.
So a handler answering 200 is reached exactly for authenticated admins, and the
role gate's 401 `Authentication required` never appears on this route. On the
route [optional gate, role gate, handler] every request whose authentication
fails ends with the role gate's 401. -/
theorem admin_route_decision (jm : TokenManager) (header : String → Option String) :
    (∀ claims, Authenticates jm header claims → claims.Role = "admin" → ∀ body,
      Context.Next [AuthMiddleware jm, AdminMiddleware, terminal body] (Context.fresh header)
        = { body { withIdentity ((Context.fresh header).called (bearerToken header)) claims
                   with index := 2 }
            with index := 5 })
    ∧ (∀ claims, Authenticates jm header claims → claims.Role ≠ "admin" → ∀ body,
      Context.Next [AuthMiddleware jm, AdminMiddleware, terminal body] (Context.fresh header)
        = { reject { withIdentity ((Context.fresh header).called (bearerToken header)) claims
                     with index := 1 } 403 "Admin privileges required"
            with index := 65 })
    ∧ (AuthFails jm header →
      ∃ m c0, m ∈ ["Authorization header required", "Invalid authorization header format",
          "Invalid or expired token"]
        ∧ c0.Keys = (fun _ => none) ∧ c0.Writer = []
        ∧ ∀ body,
          Context.Next [AuthMiddleware jm, AdminMiddleware, terminal body] (Context.fresh header)
            = { reject c0 401 m with index := 64 })
    ∧ (∀ obj,
      (Context.Next [AuthMiddleware jm, AdminMiddleware, terminal (fun c => c.JSON 200 obj)]
          (Context.fresh header)).Writer = [(200, obj)]
        ↔ ∃ claims, Authenticates jm header claims ∧ claims.Role = "admin")
    ∧ (∀ obj, (401, failure "Authentication required") ∉
      (Context.Next [AuthMiddleware jm, AdminMiddleware, terminal (fun c => c.JSON 200 obj)]
          (Context.fresh header)).Writer)
    ∧ (AuthFails jm header →
      ∃ c0 : Context, c0.Keys = (fun _ => none) ∧ c0.Writer = []
        ∧ ∀ body,
          Context.Next [OptionalAuthMiddleware jm, AdminMiddleware, terminal body]
              (Context.fresh header)
            = { reject c0 401 "Authentication required" with index := 65 }) := by
  have hw1 : ∀ claims, Authenticates jm header claims → claims.Role = "admin" → ∀ obj,
      (Context.Next [AuthMiddleware jm, AdminMiddleware, terminal (fun c => c.JSON 200 obj)]
          (Context.fresh header)).Writer = [(200, obj)] := by
    intro claims ha hr obj
    rw [route_admin jm header _ claims ha hr]
    simp [Context.JSON, withIdentity, Context.Set, Context.called, Context.fresh]
  have hw2 : ∀ claims, Authenticates jm header claims → claims.Role ≠ "admin" → ∀ body,
      (Context.Next [AuthMiddleware jm, AdminMiddleware, terminal body]
          (Context.fresh header)).Writer = [(403, failure "Admin privileges required")] := by
    intro claims ha hr body
    rw [route_not_admin jm header _ claims ha hr]
    simp [reject, Context.JSON, Context.Abort, withIdentity, Context.Set, Context.called,
      Context.fresh]
  have hw3 : AuthFails jm header → ∃ m, m ≠ "Authentication required" ∧ ∀ body,
      (Context.Next [AuthMiddleware jm, AdminMiddleware, terminal body]
          (Context.fresh header)).Writer = [(401, failure m)] := by
    intro hf
    obtain ⟨m, c0, hm, _, hw, heq⟩ := route_auth_fails jm header hf
    refine ⟨m, ?_, ?_⟩
    · simp at hm
      rcases hm with rfl | rfl | rfl <;> decide
    · intro body
      rw [heq]
      simp [reject, Context.JSON, Context.Abort, hw]
  refine ⟨fun claims ha hr body => route_admin jm header body claims ha hr,
    fun claims ha hr body => route_not_admin jm header body claims ha hr, ?_, ?_, ?_,
    route_optional_auth_fails jm header⟩
  · intro hf
    obtain ⟨m, c0, hm, hk, hw, heq⟩ := route_auth_fails jm header hf
    exact ⟨m, c0, hm, hk, hw, fun body => heq _⟩
  · intro obj
    constructor
    · intro hw
      rcases authFails_or_authenticates jm header with hf | ⟨claims, ha⟩
      · obtain ⟨m, _, h3⟩ := hw3 hf
        rw [h3] at hw
        simp at hw
      · by_cases hr : claims.Role = "admin"
        · exact ⟨claims, ha, hr⟩
        · rw [hw2 claims ha hr] at hw
          simp at hw
    · rintro ⟨claims, ha, hr⟩
      exact hw1 claims ha hr obj
  · intro obj
    rcases authFails_or_authenticates jm header with hf | ⟨claims, ha⟩
    · obtain ⟨m, hm, h3⟩ := hw3 hf
      rw [h3]
      simp [failure]
      exact fun h => hm h.symm
    · by_cases hr : claims.Role = "admin"
      · rw [hw1 claims ha hr obj]
        simp
      · rw [hw2 claims ha hr]
        simp

theorem readFields_wireField (f : List Char) :
    ∀ (tail acc : List Char), readFields (wireField f ++ tail) acc
      = (readFields tail []).map (fun fs => (acc.reverse ++ f) :: fs) := by
  induction f with
  | nil =>
    intro tail acc
    cases tail with
    | nil => simp [wireField, readFields]
    | cons y rest => simp [wireField, readFields]
  | cons ch f ih =>
    intro tail acc
    have h1 : ('_' : Char) ≠ '.' := by decide
    simp only [wireField, List.cons_append]
    cases hw : wireField f ++ tail with
    | nil =>
      cases f <;> simp [wireField] at hw
    | cons y rest =>
      rw [← hw]
      have : readFields ('_' :: ch :: (wireField f ++ tail)) acc
          = readFields (wireField f ++ tail) (ch :: acc) := by
        rw [hw]
        simp [readFields, h1]
      rw [this, ih]
      simp

theorem readFields_wireFields (fs : List (List Char)) :
    readFields (wireFields fs) [] = some fs := by
  induction fs with
  | nil => rfl
  | cons f fs ih =>
    simp [wireFields, readFields_wireField, ih]

theorem wireFields_append (fs gs : List (List Char)) :
    wireFields (fs ++ gs) = wireFields fs ++ wireFields gs := by
  induction fs with
  | nil => rfl
  | cons f fs ih => simp [wireFields, ih]

theorem readNat_wireNat (n : Nat) : readNat (wireNat n) = n := by
  unfold readNat wireNat
  rw [List.map_map]
  have h : (Nat.digits 10 n).map
      ((fun ch : Char => ch.toNat - 48) ∘ (fun d => Char.ofNat (48 + d))) = Nat.digits 10 n := by
    conv_rhs => rw [← List.map_id (Nat.digits 10 n)]
    apply List.map_congr_left
    intro d hd
    have hlt : d < 10 := Nat.digits_lt_base (by norm_num) hd
    interval_cases d <;> rfl
  rw [h, Nat.ofDigits_digits]

theorem readTime_wireTime (t : Option Time) : readTime (wireTime t) = t := by
  cases t with
  | none => rfl
  | some t =>
    by_cases h : 0 ≤ t
    · simp only [wireTime, readTime, h, if_true, readNat_wireNat]
      congr 1
      exact Int.natAbs_of_nonneg h
    · have hne : ('-' : Char) ≠ '+' := by decide
      simp only [wireTime, readTime, h, if_false, hne, readNat_wireNat]
      congr 1
      have : t < 0 := not_le.mp h
      rw [Int.ofNat_natAbs_of_nonpos (le_of_lt this)]
      simp

/-- The plain-text wire format decodes what it encoded, for all claims. -/
theorem plainLib_roundTrips (alg : String) (claims : JWTClaims) :
    plainLib.RoundTrips alg claims := by
  intro sig
  have hd : (plainLib.Compact (plainLib.SigningString alg claims) sig).data
      = wireFields (plainText alg claims ++ [sig.data]) := by
    simp [plainLib, wireFields_append, wireFields]
  simp only [plainLib, plainDecode] at hd ⊢
  rw [hd, readFields_wireFields]
  simp [plainText, readNat_wireNat, readTime_wireTime]

theorem GetSigningMethod_Alg (m : SigningMethod) : GetSigningMethod m.Alg = some m := by
  cases m with
  | HMAC h => cases h <;> decide
  | RSA h => cases h <;> decide
  | RSAPSS h => cases h <;> decide
  | ECDSA h => cases h <;> decide
  | EdDSA => decide
  | Unsecured => decide

theorem Alg_of_GetSigningMethod (a : String) (m : SigningMethod)
    (h : GetSigningMethod a = some m) : m.Alg = a := by
  unfold GetSigningMethod at h
  simpa using List.find?_some h

theorem verifyExpiresAt_eq_nil (claims : JWTClaims) (now : Time) :
    verifyExpiresAt claims now = [] ↔ ∀ exp, claims.ExpiresAt = some exp → now < exp := by
  unfold verifyExpiresAt
  cases claims.ExpiresAt with
  | none => simp
  | some exp =>
    by_cases h : now < exp
    · simp [h]
    · simp [h]

theorem verifyNotBefore_eq_nil (claims : JWTClaims) (now : Time) :
    verifyNotBefore claims now = [] ↔ ∀ nbf, claims.NotBefore = some nbf → nbf ≤ now := by
  unfold verifyNotBefore
  cases claims.NotBefore with
  | none => simp
  | some nbf =>
    by_cases h : now < nbf
    · simp [h]
    · simp [h, not_lt.mp h]

/-- The validator passes exactly inside the window. -/
theorem Validate_eq_nil (claims : JWTClaims) (now : Time) :
    Validate claims now = [] ↔ inWindow claims now := by
  unfold Validate inWindow
  rw [List.append_eq_nil, verifyExpiresAt_eq_nil, verifyNotBefore_eq_nil]
  exact And.comm

/-- ValidateToken on a token that decodes to an HMAC method `h`: the signature is
compared with the MAC under the manager's key, then the validator runs on one
clock read. -/
theorem ValidateToken_of_decoded (lib : Lib) (j : JWTManager) (tokenString : String)
    (clk : Clock) (u : Unverified) (h : Hash) (sig : String)
    (hd : lib.Decode tokenString = .ok u) (ha : u.alg = some (SigningMethod.HMAC h).Alg)
    (hs : u.Signature = some sig) :
    j.ValidateToken lib tokenString clk
      = if sig = lib.hmac h j.secretKey u.text then (validated u.Claims clk.Now.1, clk.Now.2)
        else (.error .TokenSignatureInvalid, clk) := by
  simp only [JWTManager.ValidateToken, ParseWithClaims, hd, ha, hs, GetSigningMethod_Alg,
    JWTManager.keyFunc, SigningMethod.Verify, validated]
  by_cases hsig : sig = lib.hmac h j.secretKey u.text
  · simp only [hsig, if_true]
    cases hv : Validate u.Claims clk.Now.1 <;> simp
  · simp only [hsig, if_false]

/-- Validation of a token the library signed with an HMAC method and the manager's
key: only the registered claims decide. -/
theorem ValidateToken_signed (lib : Lib) (j : JWTManager) (h : Hash)
    (claims : JWTClaims) (hrt : lib.RoundTrips (SigningMethod.HMAC h).Alg claims)
    (clk : Clock) :
    j.ValidateToken lib ((NewWithClaims (.HMAC h) claims).SignedString lib j.secretKey).1 clk
      = (validated claims clk.Now.1, clk.Now.2) := by
  have e : ((NewWithClaims (.HMAC h) claims).SignedString lib j.secretKey).1
      = lib.Compact (lib.SigningString (SigningMethod.HMAC h).Alg claims)
          (lib.hmac h j.secretKey (lib.SigningString (SigningMethod.HMAC h).Alg claims)) := rfl
  rw [e, ValidateToken_of_decoded lib j _ clk _ h _ (hrt _) rfl rfl]
  simp

theorem validated_of_inWindow (claims : JWTClaims) (now : Time) (h : inWindow claims now) :
    validated claims now = .ok claims := by
  simp [validated, (Validate_eq_nil claims now).mpr h]

theorem validated_of_not_inWindow (claims : JWTClaims) (now : Time)
    (h : ¬ inWindow claims now) :
    validated claims now = .error (.TokenInvalidClaims (Validate claims now))
    ∧ Validate claims now ≠ [] := by
  have hne : Validate claims now ≠ [] := fun e => h ((Validate_eq_nil claims now).mp e)
  refine ⟨?_, hne⟩
  unfold validated
  cases hv : Validate claims now with
  | nil => exact absurd hv hne
  | cons e es => rfl

theorem GenerateToken_eq (lib : Lib) (j : JWTManager) (userID : Nat)
    (email username role : String) (clk : Clock) :
    j.GenerateToken lib userID email username role clk
      = (((NewWithClaims (.HMAC .SHA256)
            (j.newClaims userID email username role clk).1).SignedString lib j.secretKey),
          (j.newClaims userID email username role clk).2) := rfl

theorem GenerateToken_succeeds (lib : Lib) (j : JWTManager) (userID : Nat)
    (email username role : String) (clk : Clock) :
    (j.GenerateToken lib userID email username role clk).1.2 = none := by
  simp [GenerateToken_eq, Token.SignedString, NewWithClaims, SigningMethod.Sign]

/-- The three timestamps GenerateToken signs, read by read. -/
theorem newClaims_timestamps (j : JWTManager) (userID : Nat)
    (email username role : String) (clk : Clock) :
    (j.newClaims userID email username role clk).1.ExpiresAt
        = some (Time.Truncate (clk.readings 0 + j.duration) Second)
    ∧ (j.newClaims userID email username role clk).1.IssuedAt
        = some (Time.Truncate (clk.readings 1) Second)
    ∧ (j.newClaims userID email username role clk).1.NotBefore
        = some (Time.Truncate (clk.readings 2) Second) :=
  ⟨rfl, rfl, rfl⟩

theorem inWindow_newClaims (j : JWTManager) (userID : Nat)
    (email username role : String) (clk : Clock) (now : Time) :
    inWindow (j.newClaims userID email username role clk).1 now
      ↔ Time.Truncate (clk.readings 2) Second ≤ now
        ∧ now < Time.Truncate (clk.readings 0 + j.duration) Second := by
  obtain ⟨he, _, hn⟩ := newClaims_timestamps j userID email username role clk
  unfold inWindow
  rw [he, hn]
  simp

/-- C5 as stated fails at the closing instant of the window: a token issued at
0 s with a duration of 3600 s has `NotBefore` 0 s and `ExpiresAt` 3600 s, and
ValidateToken at 3600 s refuses it as expired. -/
theorem ValidateToken_refuses_at_expiry :
    ((NewJWTManager "secret" (3600 * Second)).newClaims 7 "a@b.c" "ayse" "user"
        (stoppedClock 0)).1.NotBefore = some 0
    ∧ ((NewJWTManager "secret" (3600 * Second)).newClaims 7 "a@b.c" "ayse" "user"
        (stoppedClock 0)).1.ExpiresAt = some (3600 * Second)
    ∧ (0 : Time) ≤ 3600 * Second ∧ (3600 * Second : Time) ≤ 3600 * Second
    ∧ ((NewJWTManager "secret" (3600 * Second)).ValidateToken plainLib
        ((NewJWTManager "secret" (3600 * Second)).GenerateToken plainLib 7 "a@b.c" "ayse"
          "user" (stoppedClock 0)).1.1 (stoppedClock (3600 * Second))).1
      = .error (.TokenInvalidClaims [.TokenExpired]) := by
  refine ⟨?_, ?_, by decide, le_refl _, ?_⟩
  · simp [JWTManager.newClaims, NewJWTManager, stoppedClock, Clock.Now, NewNumericDate,
      Time.Truncate]
  · simp [JWTManager.newClaims, NewJWTManager, stoppedClock, Clock.Now, NewNumericDate,
      Time.Truncate, Time.Add, Second]
  · rw [GenerateToken_eq, ValidateToken_signed plainLib _ .SHA256 _ (plainLib_roundTrips _ _)]
    simp [validated, Validate, verifyExpiresAt, verifyNotBefore, JWTManager.newClaims,
      NewJWTManager, stoppedClock, Clock.Now, NewNumericDate, Time.Truncate, Time.Add, Second]

/-- C5, amended: when the wire format decodes what it encodes for the claims
GenerateToken built, the token GenerateToken returns (it never fails) is
accepted by ValidateToken of the same manager at every time `now` with
`NotBefore ≤ now < ExpiresAt`, and the claims returned carry the user id, email,
username and role given to GenerateToken; at any other time, the instant
`ExpiresAt` included, it is refused with the failed checks. -/
theorem ValidateToken_GenerateToken (lib : Lib) (j : JWTManager)
    (userID : Nat) (email username role : String) (clk clkv : Clock)
    (hrt : lib.RoundTrips SigningMethodHS256.Alg (j.newClaims userID email username role clk).1) :
    (j.GenerateToken lib userID email username role clk).1.2 = none
    ∧ (inWindow (j.newClaims userID email username role clk).1 clkv.Now.1 →
        ∃ claims,
          (j.ValidateToken lib (j.GenerateToken lib userID email username role clk).1.1 clkv).1
            = .ok claims
          ∧ claims.UserID = userID ∧ claims.Email = email
          ∧ claims.Username = username ∧ claims.Role = role)
    ∧ (¬ inWindow (j.newClaims userID email username role clk).1 clkv.Now.1 →
        ∃ err errs,
          (j.ValidateToken lib (j.GenerateToken lib userID email username role clk).1.1 clkv).1
            = .error (.TokenInvalidClaims (err :: errs)))
    ∧ (inWindow (j.newClaims userID email username role clk).1 clkv.Now.1
        ↔ Time.Truncate (clk.readings 2) Second ≤ clkv.Now.1
          ∧ clkv.Now.1 < Time.Truncate (clk.readings 0 + j.duration) Second) := by
  have hv := ValidateToken_signed lib j .SHA256 _ hrt clkv
  refine ⟨GenerateToken_succeeds lib j userID email username role clk, ?_, ?_,
    inWindow_newClaims j userID email username role clk _⟩
  · intro hw
    refine ⟨(j.newClaims userID email username role clk).1, ?_, rfl, rfl, rfl, rfl⟩
    rw [GenerateToken_eq, hv, validated_of_inWindow _ _ hw]
  · intro hw
    obtain ⟨he, hne⟩ := validated_of_not_inWindow _ _ hw
    cases hl : Validate (j.newClaims userID email username role clk).1 clkv.Now.1 with
    | nil => exact absurd hl hne
    | cons err errs =>
      refine ⟨err, errs, ?_⟩
      rw [GenerateToken_eq, hv, he, hl]

/-- C6 as stated fails: a token whose header names HS512, signed with the
configured secret, passes the key selection and is accepted by ValidateToken. -/
theorem ValidateToken_accepts_HS512 :
    (plainLib.Decode hs512Token).toOption.map (fun u => u.alg) = some (some "HS512")
    ∧ "HS512" ≠ "HS256"
    ∧ (NewJWTManager "secret" (3600 * Second)).keyFunc (NewWithClaims (.HMAC .SHA512) sampleClaims)
        = .ok "secret"
    ∧ ((NewJWTManager "secret" (3600 * Second)).ValidateToken plainLib hs512Token
        (stoppedClock Second)).1 = .ok sampleClaims := by
  refine ⟨?_, by decide, rfl, ?_⟩
  · have h := plainLib_roundTrips "HS512" sampleClaims
      (plainLib.hmac .SHA512 "secret" (plainLib.SigningString "HS512" sampleClaims))
    have e : hs512Token = plainLib.Compact (plainLib.SigningString "HS512" sampleClaims)
        (plainLib.hmac .SHA512 "secret" (plainLib.SigningString "HS512" sampleClaims)) := rfl
    rw [e, h]
    rfl
  · have h := ValidateToken_signed plainLib (NewJWTManager "secret" (3600 * Second)) .SHA512
      sampleClaims (plainLib_roundTrips _ _) (stoppedClock Second)
    have hw : inWindow sampleClaims (stoppedClock Second).Now.1 := by
      constructor <;> intro t ht <;> simp [sampleClaims] at ht <;> subst ht <;>
        simp [stoppedClock, Clock.Now, Second]
    rw [validated_of_inWindow _ _ hw] at h
    exact congrArg Prod.fst h

/-- C6, amended: ValidateToken rejects every token whose header names an algorithm
outside the HMAC family (HS256, HS384, HS512), without reading the clock: when
the name is that of a registered method, the key selection returns the error
`unexpected signing method`, and, the signature segment being decodable, that is
the error validation fails with, whatever the signature. A token of any HMAC
method, HS384 and HS512 as well as HS256, signed with the configured secret
passes the key selection and is accepted inside the window of its claims. -/
theorem ValidateToken_rejects_non_HMAC (lib : Lib) (j : JWTManager) :
    (∀ (tokenString : String) (clk : Clock) (u : Unverified),
      lib.Decode tokenString = .ok u → (∀ h, u.alg ≠ some (SigningMethod.HMAC h).Alg) →
      (∃ e, j.ValidateToken lib tokenString clk = (.error e, clk))
      ∧ (∀ a m, u.alg = some a → GetSigningMethod a = some m →
          ∀ claims valid, j.keyFunc { Method := m, Claims := claims, Valid := valid }
            = .error (.New "unexpected signing method"))
      ∧ (∀ a m sig, u.alg = some a → GetSigningMethod a = some m → u.Signature = some sig →
          j.ValidateToken lib tokenString clk
            = (.error (.TokenUnverifiable "error while executing keyfunc"
                (some "unexpected signing method")), clk)))
    ∧ (∀ (h : Hash) (claims : JWTClaims) (clk : Clock),
      lib.RoundTrips (SigningMethod.HMAC h).Alg claims → inWindow claims clk.Now.1 →
      j.keyFunc (NewWithClaims (.HMAC h) claims) = .ok j.secretKey
      ∧ j.ValidateToken lib ((NewWithClaims (.HMAC h) claims).SignedString lib j.secretKey).1 clk
          = (.ok claims, clk.Now.2)) := by
  constructor
  · intro tokenString clk u hd ha
    have hk : ∀ a m, u.alg = some a → GetSigningMethod a = some m →
        ∀ claims valid, j.keyFunc { Method := m, Claims := claims, Valid := valid }
          = .error (.New "unexpected signing method") := by
      intro a m hua hm claims valid
      have hAlg := Alg_of_GetSigningMethod a m hm
      cases m with
      | HMAC h => exact absurd (by rw [hua, hAlg]) (ha h)
      | RSA h => rfl
      | RSAPSS h => rfl
      | ECDSA h => rfl
      | EdDSA => rfl
      | Unsecured => rfl
    have h3 : ∀ a m sig, u.alg = some a → GetSigningMethod a = some m →
        u.Signature = some sig →
        j.ValidateToken lib tokenString clk
          = (.error (.TokenUnverifiable "error while executing keyfunc"
              (some "unexpected signing method")), clk) := by
      intro a m sig hua hm hs
      simp only [JWTManager.ValidateToken, ParseWithClaims, hd, hua, hm, hs, hk a m hua hm,
        Error.text]
    refine ⟨?_, hk, h3⟩
    cases hua : u.alg with
    | none => exact ⟨_, by simp only [JWTManager.ValidateToken, ParseWithClaims, hd, hua]; rfl⟩
    | some a =>
      cases hm : GetSigningMethod a with
      | none =>
        exact ⟨_, by simp only [JWTManager.ValidateToken, ParseWithClaims, hd, hua, hm]; rfl⟩
      | some m =>
        cases hs : u.Signature with
        | none =>
          exact ⟨_, by
            simp only [JWTManager.ValidateToken, ParseWithClaims, hd, hua, hm, hs]; rfl⟩
        | some sig => exact ⟨_, h3 a m sig hua hm hs⟩
  · intro h claims clk hrt hw
    refine ⟨rfl, ?_⟩
    rw [ValidateToken_signed lib j h claims hrt clk, validated_of_inWindow _ _ hw]

theorem truncate_add_seconds (t d : Int) (hd : d % 1000000000 = 0) :
    t + d - (t + d) % 1000000000 = t - t % 1000000000 + d := by
  omega

theorem truncate_add_iff (a b d : Int) :
    a + d - (a + d) % 1000000000 = b - b % 1000000000 + d
      ↔ d % 1000000000 = 0 ∧ a - a % 1000000000 = b - b % 1000000000 := by
  omega

/-- C8 as stated fails: on a clock that ticks one second at every read, the claims
GenerateToken signs have `IssuedAt` one second before `NotBefore`, and `ExpiresAt`
is not `IssuedAt` plus the duration; on a stopped clock, a duration that is not
a whole number of seconds breaks the second equation too. -/
theorem newClaims_clock_reads :
    ((NewJWTManager "secret" (3600 * Second)).newClaims 7 "a@b.c" "ayse" "user"
        tickingClock).1.IssuedAt = some (1 * Second)
    ∧ ((NewJWTManager "secret" (3600 * Second)).newClaims 7 "a@b.c" "ayse" "user"
        tickingClock).1.NotBefore = some (2 * Second)
    ∧ ((NewJWTManager "secret" (3600 * Second)).newClaims 7 "a@b.c" "ayse" "user"
        tickingClock).1.ExpiresAt = some (3600 * Second)
    ∧ ¬ (((NewJWTManager "secret" (3600 * Second)).newClaims 7 "a@b.c" "ayse" "user"
          tickingClock).1.IssuedAt
        = ((NewJWTManager "secret" (3600 * Second)).newClaims 7 "a@b.c" "ayse" "user"
          tickingClock).1.NotBefore
      ∧ ((NewJWTManager "secret" (3600 * Second)).newClaims 7 "a@b.c" "ayse" "user"
          tickingClock).1.ExpiresAt
        = (((NewJWTManager "secret" (3600 * Second)).newClaims 7 "a@b.c" "ayse" "user"
          tickingClock).1.IssuedAt).map (fun t => t + 3600 * Second))
    ∧ ((NewJWTManager "secret" 1500000000).newClaims 7 "a@b.c" "ayse" "user"
        (stoppedClock 600000000)).1.IssuedAt = some 0
    ∧ ((NewJWTManager "secret" 1500000000).newClaims 7 "a@b.c" "ayse" "user"
        (stoppedClock 600000000)).1.ExpiresAt = some (2 * Second) := by
  simp [JWTManager.newClaims, NewJWTManager, tickingClock, stoppedClock, Clock.Now,
    NewNumericDate, Time.Truncate, Time.Add, Second]

/-- C8, amended: the claims GenerateToken signs carry the arguments as user id,
email, username and role, and the email as subject, for every behaviour of the
clock. `IssuedAt = NotBefore` holds exactly when the clock reads made for the two
fall in the same second; `ExpiresAt = IssuedAt + duration` holds exactly when the
duration is a whole number of seconds and the clock reads made for `ExpiresAt`
and `IssuedAt` fall in the same second. -/
theorem newClaims_spec (lib : Lib) (j : JWTManager) (userID : Nat)
    (email username role : String) (clk : Clock) :
    (j.GenerateToken lib userID email username role clk).1
      = (NewWithClaims SigningMethodHS256
          (j.newClaims userID email username role clk).1).SignedString lib j.secretKey
    ∧ (j.newClaims userID email username role clk).1.UserID = userID
    ∧ (j.newClaims userID email username role clk).1.Email = email
    ∧ (j.newClaims userID email username role clk).1.Username = username
    ∧ (j.newClaims userID email username role clk).1.Role = role
    ∧ (j.newClaims userID email username role clk).1.Subject = email
    ∧ ((j.newClaims userID email username role clk).1.IssuedAt
          = (j.newClaims userID email username role clk).1.NotBefore
        ↔ Time.Truncate (clk.readings 1) Second = Time.Truncate (clk.readings 2) Second)
    ∧ ((j.newClaims userID email username role clk).1.ExpiresAt
          = ((j.newClaims userID email username role clk).1.IssuedAt).map
              (fun t => t + j.duration)
        ↔ j.duration % Second = 0
          ∧ Time.Truncate (clk.readings 0) Second = Time.Truncate (clk.readings 1) Second) := by
  obtain ⟨he, hi, hn⟩ := newClaims_timestamps j userID email username role clk
  refine ⟨rfl, rfl, rfl, rfl, rfl, rfl, ?_, ?_⟩
  · rw [hi, hn]
    simp
  · rw [he, hi]
    simp only [Option.map_some', Option.some.injEq]
    exact truncate_add_iff _ _ _

theorem AuthMiddleware_accepts_witness :
    (Context.fresh sampleHeader).GetHeader "Authorization" = "Bearer " ++ "tok"
    ∧ ' ' ∉ "tok".data
    ∧ sampleManager.ValidateToken "tok" = .ok sampleClaims
    ∧ (∀ next, AuthMiddleware sampleManager next (Context.fresh sampleHeader)
        = next (withIdentity ((Context.fresh sampleHeader).called "tok") sampleClaims)) :=
  ⟨by decide, by decide, by simp [sampleManager],
    (AuthMiddleware_accepts sampleManager (Context.fresh sampleHeader) "tok" sampleClaims
      (by decide) (by decide) (by simp [sampleManager])).1⟩

theorem ValidateToken_GenerateToken_witness :
    plainLib.RoundTrips SigningMethodHS256.Alg
      ((NewJWTManager "secret" (3600 * Second)).newClaims 7 "a@b.c" "ayse" "user"
        (stoppedClock 0)).1
    ∧ inWindow ((NewJWTManager "secret" (3600 * Second)).newClaims 7 "a@b.c" "ayse" "user"
        (stoppedClock 0)).1 (stoppedClock Second).Now.1
    ∧ ∃ claims,
        ((NewJWTManager "secret" (3600 * Second)).ValidateToken plainLib
          ((NewJWTManager "secret" (3600 * Second)).GenerateToken plainLib 7 "a@b.c" "ayse"
            "user" (stoppedClock 0)).1.1 (stoppedClock Second)).1 = .ok claims
        ∧ claims.UserID = 7 ∧ claims.Email = "a@b.c"
        ∧ claims.Username = "ayse" ∧ claims.Role = "user" :=
  have hw : inWindow ((NewJWTManager "secret" (3600 * Second)).newClaims 7 "a@b.c" "ayse"
      "user" (stoppedClock 0)).1 (stoppedClock Second).Now.1 := by
    rw [inWindow_newClaims]
    simp [NewJWTManager, stoppedClock, Clock.Now, Time.Truncate, Second]
  ⟨plainLib_roundTrips _ _, hw,
    (ValidateToken_GenerateToken plainLib (NewJWTManager "secret" (3600 * Second))
      7 "a@b.c" "ayse" "user" (stoppedClock 0) (stoppedClock Second)
      (plainLib_roundTrips _ _)).2.1 hw⟩

theorem sampleClaims_inWindow : inWindow sampleClaims (stoppedClock Second).Now.1 := by
  constructor <;> intro t ht <;> simp [sampleClaims] at ht <;> subst ht <;>
    simp [stoppedClock, Clock.Now, Second]

theorem ValidateToken_rejects_non_HMAC_witness :
    plainLib.Decode rs256Token
      = .ok { alg := some "RS256", Claims := sampleClaims,
              text := plainLib.SigningString "RS256" sampleClaims, Signature := some "sig" }
    ∧ (∀ h, some "RS256" ≠ some (SigningMethod.HMAC h).Alg)
    ∧ (NewJWTManager "secret" (3600 * Second)).ValidateToken plainLib rs256Token
        (stoppedClock Second)
      = (.error (.TokenUnverifiable "error while executing keyfunc"
          (some "unexpected signing method")), stoppedClock Second)
    ∧ plainLib.RoundTrips (SigningMethod.HMAC .SHA384).Alg sampleClaims
    ∧ inWindow sampleClaims (stoppedClock Second).Now.1
    ∧ (NewJWTManager "secret" (3600 * Second)).ValidateToken plainLib
        ((NewWithClaims (.HMAC .SHA384) sampleClaims).SignedString plainLib "secret").1
        (stoppedClock Second)
      = (.ok sampleClaims, (stoppedClock Second).Now.2) :=
  have hd := plainLib_roundTrips "RS256" sampleClaims "sig"
  have ha : ∀ h, some "RS256" ≠ some (SigningMethod.HMAC h).Alg := by
    intro h
    cases h <;> decide
  ⟨hd, ha,
    ((ValidateToken_rejects_non_HMAC plainLib (NewJWTManager "secret" (3600 * Second))).1
      rs256Token (stoppedClock Second) _ hd ha).2.2 "RS256" (.RSA .SHA256) "sig" rfl
      (by decide) rfl,
    plainLib_roundTrips _ _, sampleClaims_inWindow,
    ((ValidateToken_rejects_non_HMAC plainLib (NewJWTManager "secret" (3600 * Second))).2
      .SHA384 sampleClaims (stoppedClock Second) (plainLib_roundTrips _ _)
      sampleClaims_inWindow).2⟩

theorem newClaims_spec_witness :
    creepingClock.readings 1 ≠ creepingClock.readings 2
    ∧ ((NewJWTManager "secret" (3600 * Second)).newClaims 7 "a@b.c" "ayse" "user"
        creepingClock).1.IssuedAt
      = ((NewJWTManager "secret" (3600 * Second)).newClaims 7 "a@b.c" "ayse" "user"
        creepingClock).1.NotBefore
    ∧ ((NewJWTManager "secret" (3600 * Second)).newClaims 7 "a@b.c" "ayse" "user"
        creepingClock).1.ExpiresAt
      = (((NewJWTManager "secret" (3600 * Second)).newClaims 7 "a@b.c" "ayse" "user"
        creepingClock).1.IssuedAt).map (fun t => t + 3600 * Second) :=
  ⟨by decide,
    (newClaims_spec plainLib (NewJWTManager "secret" (3600 * Second)) 7 "a@b.c" "ayse" "user"
      creepingClock).2.2.2.2.2.2.1.mpr (by decide),
    (newClaims_spec plainLib (NewJWTManager "secret" (3600 * Second)) 7 "a@b.c" "ayse" "user"
      creepingClock).2.2.2.2.2.2.2.mpr ⟨by decide, by decide⟩⟩

theorem AuthMiddleware_rejects_witness :
    (Context.fresh (fun _ => none)).GetHeader "Authorization" = ""
    ∧ (∀ next, AuthMiddleware sampleManager next (Context.fresh (fun _ => none))
        = reject (Context.fresh (fun _ => none)) 401 "Authorization header required")
    ∧ (∀ next, AuthMiddleware sampleManager next
          (Context.fresh (fun k => if k = "Authorization" then some "Basic xyz" else none))
        = reject (Context.fresh (fun k => if k = "Authorization" then some "Basic xyz" else none))
            401 "Invalid authorization header format")
    ∧ (∀ next, AuthMiddleware sampleManager next
          (Context.fresh (fun k => if k = "Authorization" then some "Bearer bad" else none))
        = reject ((Context.fresh
              (fun k => if k = "Authorization" then some "Bearer bad" else none)).called "bad")
            401 "Invalid or expired token") :=
  ⟨by decide,
    (AuthMiddleware_rejects sampleManager (Context.fresh (fun _ => none))).1 (by decide),
    (AuthMiddleware_rejects sampleManager
      (Context.fresh (fun k => if k = "Authorization" then some "Basic xyz" else none))).2.2.2.1
      "Basic xyz" (by simp) (by decide),
    (AuthMiddleware_rejects sampleManager
      (Context.fresh (fun k => if k = "Authorization" then some "Bearer bad" else none))).2.2.1
      (by decide) (by decide) (by decide) .TokenMalformed rfl⟩

theorem OptionalAuthMiddleware_continues_witness :
    ∃ c2 : Context,
      (∀ next, OptionalAuthMiddleware sampleManager next
          (Context.fresh (fun k => if k = "Authorization" then some "Bearer bad" else none))
        = next c2)
      ∧ c2.Writer = [] ∧ c2.index = -1 :=
  (OptionalAuthMiddleware_continues sampleManager
    (Context.fresh (fun k => if k = "Authorization" then some "Bearer bad" else none))).imp
    (fun _ h => ⟨h.1, h.2.1, h.2.2.1⟩)

theorem AdminMiddleware_decision_witness :
    ((Context.fresh sampleHeader).Set "user_role" (.str "user")).Keys "user_role"
      = some (.str "user")
    ∧ (∀ next, AdminMiddleware next ((Context.fresh sampleHeader).Set "user_role" (.str "user"))
        = reject ((Context.fresh sampleHeader).Set "user_role" (.str "user"))
            403 "Admin privileges required")
    ∧ (∀ next, AdminMiddleware next (Context.fresh sampleHeader)
        = reject (Context.fresh sampleHeader) 401 "Authentication required")
    ∧ (∀ next, AdminMiddleware next ((Context.fresh sampleHeader).Set "user_role" (.str "admin"))
        = next ((Context.fresh sampleHeader).Set "user_role" (.str "admin"))) :=
  ⟨by decide,
    (AdminMiddleware_decision ((Context.fresh sampleHeader).Set "user_role" (.str "user"))).2.1
      (.str "user") (by decide) (by decide),
    (AdminMiddleware_decision (Context.fresh sampleHeader)).1 (by decide),
    (AdminMiddleware_decision
      ((Context.fresh sampleHeader).Set "user_role" (.str "admin"))).2.2.1 (by decide)⟩

theorem admin_route_decision_witness :
    Authenticates sampleManager sampleHeader sampleClaims
    ∧ sampleClaims.Role ≠ "admin"
    ∧ ∀ body,
      Context.Next [AuthMiddleware sampleManager, AdminMiddleware, terminal body]
          (Context.fresh sampleHeader)
        = { reject { withIdentity ((Context.fresh sampleHeader).called
                        (bearerToken sampleHeader)) sampleClaims
                     with index := 1 } 403 "Admin privileges required"
            with index := 65 } :=
  have ha : Authenticates sampleManager sampleHeader sampleClaims :=
    ⟨by decide, by decide, by decide, rfl⟩
  ⟨ha, by decide, (admin_route_decision sampleManager sampleHeader).2.1 sampleClaims ha (by decide)⟩

end Elelden
